import Mathlib

/-!
Shallow embedding of the labrinth authorization core: the OAuth client
registry (`src/database/models/oauth_client_item.rs`), the scope value type,
the team-membership permission resolver, and the authorization flow
controller / token issuer, together with proofs of the specified properties.

Database tables are embedded as lists of row structures; each Rust function
that issues SQL becomes a Lean function from store state to store state (or
to a query result).  Machine integers (`i64` columns) are embedded as `Int`,
bitsets as `Nat` with explicit bounds where overflow matters.
-/

namespace Labrinth

/-! ### Scope sets

`Scopes` (defined in `src/models/pats.rs`, which is not part of the sources
at hand) is a fixed-width 64-bit bitset of named OAuth capabilities, stored
in postgres as a `bigint` (`i64`) column (`oauth_clients.max_scopes`). -/

/-- A scope set: the raw bit pattern of the 64-bit flags value.
Bit patterns with bits beyond the named flags are representable verbatim. -/
structure Scopes where
  bits : Nat
deriving DecidableEq, Repr

/-- Modelled from the spec: `Scopes::to_postgres` (the `Scopes` type of
`src/models/pats.rs` is not among the sources).  Encoding to the compact
storage integer: the 64-bit pattern is stored in an `i64` column, so
patterns with the top bit set appear as negative integers
(two's complement). -/
def Scopes.to_postgres (s : Scopes) : Int :=
  if s.bits < 2 ^ 63 then (s.bits : Int) else (s.bits : Int) - 2 ^ 64

/-- Modelled from the spec: `Scopes::from_postgres`.  Decoding the stored
`i64` back into the 64-bit pattern; unknown high bits are preserved
verbatim, per the spec's stability invariant. -/
def Scopes.from_postgres (v : Int) : Scopes :=
  ⟨(v % (2 ^ 64 : Int)).toNat⟩

/-- Scope intersection (used to clamp a requested scope to a ceiling). -/
def Scopes.intersect (a b : Scopes) : Scopes :=
  ⟨a.bits &&& b.bits⟩

/-- Scope subset check (gates every privileged operation). -/
def Scopes.is_subset_of (a b : Scopes) : Bool :=
  a.bits &&& b.bits == a.bits

/-- A scope set is well formed when its bit pattern fits in the 64-bit
storage width. -/
def Scopes.wf (s : Scopes) : Prop := s.bits < 2 ^ 64

/-- C6: For every bit pattern of a Scope Set, including bits not named by
any currently known flag, encoding to the compact storage integer and
decoding back yields the identical bit pattern:
`from_postgres (to_postgres s) = s`, and unknown high bits are preserved
verbatim rather than dropped on re-encode. -/
theorem scopes_postgres_roundtrip (s : Scopes) (hs : s.wf) :
    Scopes.from_postgres (Scopes.to_postgres s) = s := by
  obtain ⟨b⟩ := s
  simp only [Scopes.wf] at hs
  simp only [Scopes.from_postgres, Scopes.to_postgres]
  by_cases h : b < 2 ^ 63
  · simp only [if_pos h]
    congr 1
    have hmod : ((b : Int) % (2 ^ 64 : Int)) = (b : Int) := by
      apply Int.emod_eq_of_lt
      · exact Int.ofNat_nonneg b
      · exact_mod_cast hs
    rw [hmod]
    exact Int.toNat_ofNat b
  · simp only [if_neg h]
    congr 1
    omega

/-- Witness for C6 at a concrete bit pattern with an unknown high bit set
(bit 63, beyond any named flag). -/
theorem scopes_postgres_roundtrip_witness :
    Scopes.wf ⟨2 ^ 63 + 5⟩ ∧
      Scopes.from_postgres (Scopes.to_postgres ⟨2 ^ 63 + 5⟩) = ⟨2 ^ 63 + 5⟩ :=
  ⟨by norm_num [Scopes.wf], scopes_postgres_roundtrip ⟨2 ^ 63 + 5⟩ (by norm_num [Scopes.wf])⟩

/-! ### Client registry store

Embedding of the postgres tables touched by
`src/database/models/oauth_client_item.rs`: `oauth_clients`,
`oauth_client_redirect_uris` and `oauth_client_authorizations`, each as a
list of rows.  `i64` columns are `Int`; the `created` timestamp column is
an abstract `Int`. -/

/-- A row of the `oauth_clients` table. -/
structure ClientRow where
  id : Int
  name : String
  icon_url : Option String
  max_scopes : Int
  secret_hash : String
  created : Int
  created_by : Int
deriving DecidableEq, Repr

/-- A row of the `oauth_client_redirect_uris` table. -/
structure RedirectUriRow where
  id : Int
  client_id : Int
  uri : String
deriving DecidableEq, Repr

/-- A row of the `oauth_client_authorizations` table
(`oauth_client_authorization_item.rs`): one grant per (client, user). -/
structure AuthorizationRow where
  id : Int
  client_id : Int
  user_id : Int
  scopes : Int
  created : Int
deriving DecidableEq, Repr

/-- The relational store state seen by the client registry. -/
structure RegistryDb where
  clients : List ClientRow
  redirect_uris : List RedirectUriRow
  authorizations : List AuthorizationRow
deriving DecidableEq, Repr

/-- Deletion of a set of `oauth_clients` rows (those whose id satisfies
`p`).  Modelled from the spec for the part outside the sources at hand: the
schema's foreign keys cascade the delete to `oauth_client_redirect_uris`
and `oauth_client_authorizations` rows referencing a deleted client, per
the comment in `OAuthClient::remove` ("Cascades to
oauth_client_redirect_uris, oauth_client_authorizations"). -/
def deleteClientsWhere (p : Int → Bool) (db : RegistryDb) : RegistryDb :=
  { clients := db.clients.filter (fun c => !(p c.id)),
    redirect_uris := db.redirect_uris.filter (fun u => !(p u.client_id)),
    authorizations := db.authorizations.filter (fun a => !(p a.client_id)) }

namespace OAuthClient

/-- `OAuthClient::remove` (`oauth_client_item.rs` lines 93-109):
`DELETE FROM oauth_clients WHERE id = $1`, cascading per the schema. -/
def remove (id : Int) (db : RegistryDb) : RegistryDb :=
  deleteClientsWhere (fun cid => cid == id) db

/-- `OAuthClient::remove_redirect_uris` (`oauth_client_item.rs` lines
160-177).  Embedded faithfully from the source: the SQL it issues is
`DELETE FROM oauth_clients WHERE id IN (SELECT * FROM UNNEST($1::bigint[]))`
— it deletes from the `oauth_clients` table, not from
`oauth_client_redirect_uris`, so the rows removed are the client rows whose
ids are in `ids` (cascading per the schema), and redirect-URI rows are only
removed by that cascade. -/
def remove_redirect_uris (ids : List Int) (db : RegistryDb) : RegistryDb :=
  deleteClientsWhere (fun cid => ids.contains cid) db

/-- The row-update function applied by `UPDATE oauth_clients SET name = $1,
icon_url = $2, max_scopes = $3 WHERE (id = $4)`: the Rust method takes
`&self : &OAuthClient` and binds `self.name`, `self.icon_url`,
`Scopes::to_postgres(self.max_scopes)` and `self.id`. -/
def updateRow (id : Int) (name : String) (icon_url : Option String)
    (max_scopes : Scopes) (c : ClientRow) : ClientRow :=
  if c.id == id then
    { c with name := name, icon_url := icon_url,
             max_scopes := max_scopes.to_postgres }
  else c

/-- `OAuthClient::update_editable_fields` (`oauth_client_item.rs` lines
139-158): updates name, icon_url and max_scopes of the row whose id matches;
touches no other table. -/
def update_editable_fields (id : Int) (name : String)
    (icon_url : Option String) (max_scopes : Scopes) (db : RegistryDb) :
    RegistryDb :=
  { db with clients := db.clients.map (updateRow id name icon_url max_scopes) }

end OAuthClient

/-- C2: after `remove id` completes, no `OAuthRedirectUri` row and no
`OAuthClientAuthorization` row referencing that client remains in the store
(the delete cascades; no orphan rows remain). -/
theorem remove_cascades_no_orphans (id : Int) (db : RegistryDb) :
    (∀ u ∈ (OAuthClient.remove id db).redirect_uris, u.client_id ≠ id) ∧
    (∀ a ∈ (OAuthClient.remove id db).authorizations, a.client_id ≠ id) := by
  constructor
  · intro u hu
    simp only [OAuthClient.remove, deleteClientsWhere, List.mem_filter,
      Bool.not_eq_true', beq_eq_false_iff_ne, ne_eq] at hu
    exact hu.2
  · intro a ha
    simp only [OAuthClient.remove, deleteClientsWhere, List.mem_filter,
      Bool.not_eq_true', beq_eq_false_iff_ne, ne_eq] at ha
    exact ha.2

/-- Witness for C2 at a concrete store: after removing client 1, the
redirect-URI row that referenced it is gone. -/
theorem remove_cascades_no_orphans_witness :
    (⟨5, 1, "https://a.example/cb"⟩ : RedirectUriRow) ∉
      (OAuthClient.remove 1
        ⟨[⟨1, "c", none, 0, "h", 0, 9⟩],
         [⟨5, 1, "https://a.example/cb"⟩],
         [⟨2, 1, 9, 0, 0⟩]⟩).redirect_uris :=
  fun h =>
    (remove_cascades_no_orphans 1
        ⟨[⟨1, "c", none, 0, "h", 0, 9⟩],
         [⟨5, 1, "https://a.example/cb"⟩],
         [⟨2, 1, 9, 0, 0⟩]⟩).1 _ h rfl

/-- A concrete store exercising `remove_redirect_uris`: two clients (ids 1
and 5) and one redirect-URI row (id 5, belonging to client 1). -/
def uriBugDb : RegistryDb :=
  { clients := [⟨1, "c1", none, 0, "h1", 0, 9⟩, ⟨5, "c5", none, 0, "h5", 0, 9⟩],
    redirect_uris := [⟨5, 1, "https://a.example/cb"⟩],
    authorizations := [] }

/-- C3 (divergence evidence): `remove_redirect_uris [5]` on `uriBugDb` — the
SQL in the source deletes from `oauth_clients`, so the redirect-URI row with
id 5 survives untouched while the unrelated client row with id 5 is deleted,
contradicting the claim that exactly the redirect-URI rows with the given
ids are removed and everything else is unchanged. -/
theorem remove_redirect_uris_deletes_wrong_table :
    (OAuthClient.remove_redirect_uris [5] uriBugDb).redirect_uris =
        [⟨5, 1, "https://a.example/cb"⟩] ∧
      (OAuthClient.remove_redirect_uris [5] uriBugDb).clients =
        [⟨1, "c1", none, 0, "h1", 0, 9⟩] := by
  constructor <;> rfl

/-- C7: `update_editable_fields` modifies only the name, icon_url and
max_scopes fields of the matching client row; the secret hash, creation
time and owning user are unchanged, rows of other clients are unchanged,
and the redirect-URI and authorization tables are untouched. -/
theorem update_editable_fields_frame (id : Int) (nm : String)
    (ic : Option String) (ms : Scopes) (db : RegistryDb) :
    (OAuthClient.update_editable_fields id nm ic ms db).redirect_uris =
        db.redirect_uris ∧
    (OAuthClient.update_editable_fields id nm ic ms db).authorizations =
        db.authorizations ∧
    (OAuthClient.update_editable_fields id nm ic ms db).clients =
        db.clients.map (OAuthClient.updateRow id nm ic ms) ∧
    ∀ c : ClientRow,
      (OAuthClient.updateRow id nm ic ms c).id = c.id ∧
      (OAuthClient.updateRow id nm ic ms c).secret_hash = c.secret_hash ∧
      (OAuthClient.updateRow id nm ic ms c).created = c.created ∧
      (OAuthClient.updateRow id nm ic ms c).created_by = c.created_by ∧
      (c.id ≠ id → OAuthClient.updateRow id nm ic ms c = c) := by
  refine ⟨rfl, rfl, rfl, fun c => ?_⟩
  unfold OAuthClient.updateRow
  by_cases hc : c.id = id
  · simp [hc]
  · simp [hc]

/-- Witness for C7 at a concrete store: a non-matching row is returned
unchanged. -/
theorem update_editable_fields_frame_witness :
    (OAuthClient.updateRow 1 "n" none ⟨0⟩ ⟨2, "c2", none, 0, "h2", 0, 9⟩) =
      ⟨2, "c2", none, 0, "h2", 0, 9⟩ :=
  ((update_editable_fields_frame 1 "n" none ⟨0⟩
      ⟨[⟨2, "c2", none, 0, "h2", 0, 9⟩], [], []⟩).2.2.2
      ⟨2, "c2", none, 0, "h2", 0, 9⟩).2.2.2.2 (by decide)

/-! ### Client queries

Embedding of the `select_clients_with_predicate!` macro: a `LEFT JOIN` of
`oauth_clients` against the per-client `array_agg` of
`oauth_client_redirect_uris`, producing a `ClientQueryResult` per selected
client, with `NULL` aggregates (`uri_ids`/`uri_vals = None`) for clients
owning no redirect-URI rows. -/

/-- The `ClientQueryResult` record of `oauth_client_item.rs` (lines 28-38). -/
structure ClientQueryResult where
  id : Int
  name : String
  icon_url : Option String
  max_scopes : Int
  secret_hash : String
  created : Int
  created_by : Int
  uri_ids : Option (List Int)
  uri_vals : Option (List String)
deriving DecidableEq, Repr

/-- The in-memory `OAuthClient` struct of `oauth_client_item.rs`
(lines 16-26). -/
structure OAuthClientData where
  id : Int
  name : String
  icon_url : Option String
  max_scopes : Scopes
  secret_hash : String
  redirect_uris : List RedirectUriRow
  created : Int
  created_by : Int
deriving DecidableEq, Repr

/-- The rows of `oauth_client_redirect_uris` grouped under a given client
by the subquery `SELECT client_id, array_agg(id), array_agg(uri) ... GROUP
BY client_id`. -/
def aggUris (db : RegistryDb) (cid : Int) : List RedirectUriRow :=
  db.redirect_uris.filter (fun u => u.client_id == cid)

/-- One output row of the `LEFT JOIN` in `select_clients_with_predicate!`:
when the client owns no redirect-URI rows the join partner is absent and
both aggregate columns are `NULL` (`none`). -/
def selectClientRow (db : RegistryDb) (c : ClientRow) : ClientQueryResult :=
  let uris := aggUris db c.id
  { id := c.id, name := c.name, icon_url := c.icon_url,
    max_scopes := c.max_scopes, secret_hash := c.secret_hash,
    created := c.created, created_by := c.created_by,
    uri_ids := if uris.isEmpty then none else some (uris.map (fun u => u.id)),
    uri_vals := if uris.isEmpty then none else some (uris.map (fun u => u.uri)) }

/-- `impl From<ClientQueryResult> for OAuthClient`
(`oauth_client_item.rs` lines 203-229): zips the aggregated id and uri
arrays, stamping every entry with the row's own client id; a `NULL`
aggregate becomes the empty list. -/
def clientOfQueryResult (r : ClientQueryResult) : OAuthClientData :=
  let redirects : List RedirectUriRow :=
    match r.uri_ids, r.uri_vals with
    | some ids, some uris =>
        (ids.zip uris).map (fun p => { id := p.1, client_id := r.id, uri := p.2 })
    | _, _ => []
  { id := r.id, name := r.name, icon_url := r.icon_url,
    max_scopes := Scopes.from_postgres r.max_scopes,
    secret_hash := r.secret_hash, redirect_uris := redirects,
    created := r.created, created_by := r.created_by }

/-- `OAuthClient::get` (`oauth_client_item.rs` lines 69-79): the select
with predicate `WHERE clients.id = $1`, `fetch_optional`, mapped through
the `From` conversion. -/
def OAuthClient.get (id : Int) (db : RegistryDb) : Option OAuthClientData :=
  (db.clients.find? (fun c => c.id == id)).map
    (fun c => clientOfQueryResult (selectClientRow db c))

/-- `OAuthClient::get_all_user_clients` (`oauth_client_item.rs` lines
81-91): the select with predicate `WHERE created_by = $1`, `fetch_all`,
mapped through the `From` conversion. -/
def OAuthClient.get_all_user_clients (user_id : Int) (db : RegistryDb) :
    List OAuthClientData :=
  (db.clients.filter (fun c => c.created_by == user_id)).map
    (fun c => clientOfQueryResult (selectClientRow db c))

/-- C9: for every client id present in the store, `OAuthClient::get`
returns `some` client even when the client has zero redirect-URI rows, and
then the returned client's `redirect_uris` list is empty (the left-join
`NULL` aggregate maps to the empty list, not an error). -/
theorem get_client_without_uris (id : Int) (db : RegistryDb)
    (hc : ∃ c ∈ db.clients, c.id = id)
    (hn : ∀ u ∈ db.redirect_uris, u.client_id ≠ id) :
    ∃ cl, OAuthClient.get id db = some cl ∧ cl.redirect_uris = [] := by
  obtain ⟨c, hcmem, hcid⟩ := hc
  have hsome : (db.clients.find? (fun c => c.id == id)).isSome := by
    rw [List.find?_isSome]
    exact ⟨c, hcmem, by simp [hcid]⟩
  obtain ⟨c', hc'⟩ := Option.isSome_iff_exists.mp hsome
  have hc'id : c'.id = id := by
    have := List.find?_some hc'
    simpa using this
  refine ⟨clientOfQueryResult (selectClientRow db c'), ?_, ?_⟩
  · simp [OAuthClient.get, hc']
  · have hagg : aggUris db c'.id = [] := by
      rw [aggUris, List.filter_eq_nil_iff]
      intro u hu
      simp only [beq_iff_eq]
      rw [hc'id]
      exact hn u hu
    simp [clientOfQueryResult, selectClientRow, hagg]

/-- Witness for C9: a store holding client 3 and a redirect-URI row of a
different client 4; `get 3` returns the client with an empty
`redirect_uris` list. -/
theorem get_client_without_uris_witness :
    ∃ cl,
      OAuthClient.get 3
          ⟨[⟨3, "c3", none, 0, "h3", 0, 9⟩, ⟨4, "c4", none, 0, "h4", 0, 9⟩],
           [⟨5, 4, "https://b.example/cb"⟩], []⟩ = some cl ∧
        cl.redirect_uris = [] :=
  get_client_without_uris 3
    ⟨[⟨3, "c3", none, 0, "h3", 0, 9⟩, ⟨4, "c4", none, 0, "h4", 0, 9⟩],
     [⟨5, 4, "https://b.example/cb"⟩], []⟩
    ⟨⟨3, "c3", none, 0, "h3", 0, 9⟩, by simp, rfl⟩
    (by intro u hu; simp at hu; subst hu; decide)

/-- Every redirect URI produced by the `From<ClientQueryResult>` conversion
carries the converted row's own client id. -/
theorem clientOfQueryResult_uri_client_id (r : ClientQueryResult) :
    ∀ u ∈ (clientOfQueryResult r).redirect_uris,
      u.client_id = (clientOfQueryResult r).id := by
  intro u hu
  simp only [clientOfQueryResult] at hu ⊢
  cases hids : r.uri_ids with
  | none => rw [hids] at hu; simp at hu
  | some ids =>
    cases hvals : r.uri_vals with
    | none => rw [hids, hvals] at hu; simp at hu
    | some vals =>
      rw [hids, hvals] at hu
      simp only [List.mem_map] at hu
      obtain ⟨p, _, hp⟩ := hu
      rw [← hp]

/-- C10: every `OAuthClient` value returned by `get` or
`get_all_user_clients` has each entry of its `redirect_uris` list carrying
a `client_id` equal to the id of that returned client (a returned client
never carries another client's redirect URI). -/
theorem returned_uris_belong_to_returned_client (id uid : Int)
    (db : RegistryDb) :
    (∀ cl, OAuthClient.get id db = some cl →
      ∀ u ∈ cl.redirect_uris, u.client_id = cl.id) ∧
    (∀ cl ∈ OAuthClient.get_all_user_clients uid db,
      ∀ u ∈ cl.redirect_uris, u.client_id = cl.id) := by
  constructor
  · intro cl hcl
    simp only [OAuthClient.get, Option.map_eq_some'] at hcl
    obtain ⟨c, _, hc⟩ := hcl
    rw [← hc]
    exact clientOfQueryResult_uri_client_id _
  · intro cl hcl
    simp only [OAuthClient.get_all_user_clients, List.mem_map] at hcl
    obtain ⟨c, _, hc⟩ := hcl
    rw [← hc]
    exact clientOfQueryResult_uri_client_id _

/-- Witness for C10 at a concrete store where client 4 owns a redirect-URI
row: the client returned by `get 4` stamps that URI with its own id. -/
theorem returned_uris_belong_to_returned_client_witness :
    (RedirectUriRow.mk 5 4 "https://b.example/cb").client_id =
      (clientOfQueryResult (selectClientRow
        ⟨[⟨4, "c4", none, 0, "h4", 0, 9⟩], [⟨5, 4, "https://b.example/cb"⟩], []⟩
        ⟨4, "c4", none, 0, "h4", 0, 9⟩)).id :=
  (returned_uris_belong_to_returned_client 4 9
      ⟨[⟨4, "c4", none, 0, "h4", 0, 9⟩], [⟨5, 4, "https://b.example/cb"⟩], []⟩).1
    _ rfl (RedirectUriRow.mk 5 4 "https://b.example/cb") (by decide)

/-! ### Team membership store and permission resolver

The resolver itself (`TeamMember::get_for_project_permissions` and friends)
is not among the sources at hand; it is modelled from the spec, §4.3, with
the row shapes matching the test driver
(`tests/common/permissions.rs`), where a membership row in an
organization's team also carries the project-flag Permission Set used when
the organization's membership supplies a project's permissions. -/

/-- A `TeamMember` row: links a user to a team and carries the project-flag
Permission Set (`permissions`, a `ProjectPermissions` bitset) plus the
organization-flag set when the team belongs to an organization. -/
structure TeamMemberRow where
  team_id : Nat
  user_id : Nat
  permissions : Nat
  organization_permissions : Option Nat
deriving DecidableEq, Repr

/-- A `Project` row: its own team, and optionally the owning organization. -/
structure ProjectRow where
  id : Nat
  team_id : Nat
  organization_id : Option Nat
deriving DecidableEq, Repr

/-- An `Organization` row: owns exactly one team. -/
structure OrganizationRow where
  id : Nat
  team_id : Nat
deriving DecidableEq, Repr

/-- The Team Membership Store state consulted by the resolver. -/
structure TeamStore where
  members : List TeamMemberRow
  organizations : List OrganizationRow
deriving DecidableEq, Repr

/-- Membership lookup: the `TeamMember` row of a user in a team, if any. -/
def findMember (store : TeamStore) (team_id user_id : Nat) :
    Option TeamMemberRow :=
  store.members.find? (fun m => m.team_id == team_id && m.user_id == user_id)

/-- Modelled from the spec (§4.3, the Permission Resolver is not among the
sources at hand): `effective_project_permissions(user, project)`.
1. If a `TeamMember` row exists for the user in the project's own team,
return its Permission Set exactly — never merged with anything else.
2. Else, if the project belongs to an organization and a row exists for the
user in the organization's team, return that row's Permission Set projected
into project-permission terms (per the test driver, the project-flag field
carried by the organization-team row).
3. Else return the empty Permission Set. -/
def effective_project_permissions (store : TeamStore) (user_id : Nat)
    (proj : ProjectRow) : Nat :=
  match findMember store proj.team_id user_id with
  | some m => m.permissions
  | none =>
    match proj.organization_id with
    | some oid =>
      match store.organizations.find? (fun o => o.id == oid) with
      | some org =>
        match findMember store org.team_id user_id with
        | some m => m.permissions
        | none => 0
      | none => 0
    | none => 0

/-- `find?` returns the unique element satisfying the predicate. -/
theorem find?_eq_some_of_unique {α : Type} (l : List α) (p : α → Bool)
    (a : α) (ha : a ∈ l) (hpa : p a = true)
    (huniq : ∀ b ∈ l, p b = true → b = a) : l.find? p = some a := by
  induction l with
  | nil => simp at ha
  | cons x xs ih =>
    by_cases hx : p x = true
    · have hxa : x = a := huniq x (List.mem_cons_self x xs) hx
      rw [List.find?_cons_of_pos _ hx, hxa]
    · have hxa : x ≠ a := fun h => hx (h ▸ hpa)
      have ha' : a ∈ xs := by
        rcases List.mem_cons.mp ha with h | h
        · exact absurd h.symm hxa
        · exact h
      rw [List.find?_cons_of_neg _ hx]
      exact ih ha' (fun b hb hpb => huniq b (List.mem_cons_of_mem x hb) hpb)

/-- C1: if a `TeamMember` row exists for the user in the project's own team
(unique per the at-most-one-membership-per-team invariant), the resolver
returns that row's Permission Set exactly, with no merging or union with
any organization-level membership — in particular, regardless of any
permissions the user holds in the owning organization's team, and even when
the project row's Permission Set is empty. -/
theorem project_team_row_is_authoritative (store : TeamStore)
    (user_id : Nat) (proj : ProjectRow) (m : TeamMemberRow)
    (hmem : m ∈ store.members) (hteam : m.team_id = proj.team_id)
    (huser : m.user_id = user_id)
    (huniq : ∀ m' ∈ store.members,
      m'.team_id = proj.team_id → m'.user_id = user_id → m' = m) :
    effective_project_permissions store user_id proj = m.permissions := by
  have hfind : findMember store proj.team_id user_id = some m := by
    apply find?_eq_some_of_unique store.members _ m hmem
    · simp [hteam, huser]
    · intro b hb hpb
      simp only [Bool.and_eq_true, beq_iff_eq] at hpb
      exact huniq b hb hpb.1 hpb.2
  simp [effective_project_permissions, hfind]

/-- Witness for C1, the spec's own scenario: user 7 holds permission `P1 =
1023` in the organization's team (team 20) and is also on the project's own
team (team 10) with `P2 = 0`; the effective permission on the project is
exactly `0`. -/
theorem project_team_row_is_authoritative_witness :
    effective_project_permissions
      ⟨[⟨20, 7, 1023, some 511⟩, ⟨10, 7, 0, none⟩], [⟨2, 20⟩]⟩ 7
      ⟨1, 10, some 2⟩ = 0 :=
  project_team_row_is_authoritative
    ⟨[⟨20, 7, 1023, some 511⟩, ⟨10, 7, 0, none⟩], [⟨2, 20⟩]⟩ 7
    ⟨1, 10, some 2⟩ ⟨10, 7, 0, none⟩ (by simp) rfl rfl
    (by intro m' hm' h1 h2
        simp only [TeamStore.mk.injEq] at hm'
        simp only [List.mem_cons, List.mem_singleton] at hm'
        rcases hm' with h | h | h
        · subst h; simp at h1
        · exact h
        · simp at h)

/-- C8: a user with no `TeamMember` row in the project's own team, where
the project either belongs to no organization or the user has no row in
the owning organization's team, resolves to the empty Permission Set. -/
theorem unaffiliated_user_has_no_permissions (store : TeamStore)
    (user_id : Nat) (proj : ProjectRow)
    (hproj : ∀ m ∈ store.members,
      ¬(m.team_id = proj.team_id ∧ m.user_id = user_id))
    (horg : ∀ oid, proj.organization_id = some oid →
      ∀ org ∈ store.organizations, org.id = oid →
        ∀ m ∈ store.members,
          ¬(m.team_id = org.team_id ∧ m.user_id = user_id)) :
    effective_project_permissions store user_id proj = 0 := by
  have hfind : findMember store proj.team_id user_id = none := by
    rw [findMember, List.find?_eq_none]
    intro m hm
    simp only [Bool.and_eq_true, beq_iff_eq, not_and]
    intro h1 h2
    exact hproj m hm ⟨h1, h2⟩
  rw [effective_project_permissions, hfind]
  cases hoid : proj.organization_id with
  | none => rfl
  | some oid =>
    cases horgf : store.organizations.find? (fun o => o.id == oid) with
    | none => simp only [horgf]
    | some org =>
      have horgmem : org ∈ store.organizations :=
        List.mem_of_find?_eq_some horgf
      have horgid : org.id = oid := by
        have := List.find?_some horgf
        simpa using this
      have hfind2 : findMember store org.team_id user_id = none := by
        rw [findMember, List.find?_eq_none]
        intro m hm
        simp only [Bool.and_eq_true, beq_iff_eq, not_and]
        intro h1 h2
        exact horg oid hoid org horgmem horgid m hm ⟨h1, h2⟩
      simp only [horgf, hfind2]

/-- Witness for C8: user 8 has no row anywhere; the effective permission on
a project owned by organization 2 is the empty set. -/
theorem unaffiliated_user_has_no_permissions_witness :
    effective_project_permissions
      ⟨[⟨20, 7, 1023, some 511⟩], [⟨2, 20⟩]⟩ 8 ⟨1, 10, some 2⟩ = 0 :=
  unaffiliated_user_has_no_permissions
    ⟨[⟨20, 7, 1023, some 511⟩], [⟨2, 20⟩]⟩ 8 ⟨1, 10, some 2⟩
    (by decide) (by decide)

/-! ### Authorization flow controller and token issuer

The flow controller (`src/auth/oauth`) is not among the sources at hand;
`beginFlow` and `exchange` are modelled from the spec, §4.4 and §4.5,
validating against the client registry store embedded above. -/

/-- The error taxonomy of spec §7 (the subset used by the flow
controller and token issuer). -/
inductive OAuthError where
  | UnknownClient
  | RedirectMismatch
  | FlowNotFound
  | FlowOwnerMismatch
  | UnsupportedGrantType
  | InvalidClient
  | InvalidGrant
deriving DecidableEq, Repr

/-- The data of a freshly created authorization flow returned by `begin`:
the validated client, the narrowed scope, the redirect URI captured by
value, and the opaque `state` echo. -/
structure FlowInit where
  client_id : Int
  user_id : Int
  scope : Scopes
  redirect_uri : String
  state_echo : Option String
deriving DecidableEq, Repr

/-- Modelled from the spec (§4.4): redirect URI selection in `begin` —
a supplied URI must be registered for the client (`RedirectMismatch`
otherwise); if omitted, the client's sole registered URI is used, and it is
an error if the client has zero or more than one. -/
def chooseRedirectUri (registered : List RedirectUriRow)
    (redirect_uri : Option String) : Except OAuthError String :=
  match redirect_uri with
  | some uri =>
      if registered.any (fun u => u.uri == uri) then Except.ok uri
      else Except.error OAuthError.RedirectMismatch
  | none =>
      match registered with
      | [u] => Except.ok u.uri
      | _ => Except.error OAuthError.RedirectMismatch

/-- Modelled from the spec (§4.4): `begin(client_id, requested_scope,
redirect_uri?, state?, authenticated_user)` — fails `UnknownClient` if the
client is absent, validates the redirect URI, and clamps `requested_scope`
to the client's `max_scopes` via intersection, never erring on over-broad
requests. -/
def beginFlow (db : RegistryDb) (client_id : Int) (requested_scope : Scopes)
    (redirect_uri : Option String) (st : Option String) (user_id : Int) :
    Except OAuthError FlowInit :=
  match db.clients.find? (fun c => c.id == client_id) with
  | none => Except.error OAuthError.UnknownClient
  | some client =>
    match chooseRedirectUri (aggUris db client.id) redirect_uri with
    | Except.error e => Except.error e
    | Except.ok uri =>
        Except.ok
          { client_id := client.id, user_id := user_id,
            scope :=
              requested_scope.intersect (Scopes.from_postgres client.max_scopes),
            redirect_uri := uri, state_echo := st }

/-- Whether an `Except` result is a success. -/
def exceptIsOk {ε α : Type} : Except ε α → Bool
  | Except.ok _ => true
  | Except.error _ => false

/-- Bitset fact: intersecting with a mask is idempotent, so a clamped
scope is a subset of the ceiling. -/
theorem land_land_self (a m : Nat) : a &&& m &&& m = a &&& m := by
  apply Nat.eq_of_testBit_eq
  intro i
  simp only [Nat.testBit_land]
  cases a.testBit i <;> cases m.testBit i <;> rfl

/-- C4: for every client and requested scope set, a successful `begin`
returns exactly `requested_scope ∩ max_scopes`, which is a subset of the
client's `max_scopes`; and `begin` never fails merely because the request
exceeds `max_scopes` — success is independent of the requested scope. -/
theorem begin_clamps_scope (db : RegistryDb) (client_id : Int)
    (s s2 : Scopes) (ru : Option String) (st : Option String)
    (user_id : Int) (client : ClientRow)
    (hclient : db.clients.find? (fun c => c.id == client_id) = some client) :
    (∀ r, beginFlow db client_id s ru st user_id = Except.ok r →
      r.scope = s.intersect (Scopes.from_postgres client.max_scopes) ∧
      r.scope.is_subset_of (Scopes.from_postgres client.max_scopes) = true) ∧
    exceptIsOk (beginFlow db client_id s ru st user_id) =
      exceptIsOk (beginFlow db client_id s2 ru st user_id) := by
  constructor
  · intro r h
    simp only [beginFlow, hclient] at h
    cases hch : chooseRedirectUri (aggUris db client.id) ru with
    | error e => rw [hch] at h; exact absurd h (by simp)
    | ok uri =>
      rw [hch] at h
      have hr : r = FlowInit.mk client.id user_id
          (s.intersect (Scopes.from_postgres client.max_scopes)) uri st := by
        cases h
        rfl
      subst hr
      refine ⟨rfl, ?_⟩
      simp only [Scopes.is_subset_of, Scopes.intersect, beq_iff_eq]
      exact land_land_self _ _
  · simp only [beginFlow, hclient]
    cases hch : chooseRedirectUri (aggUris db client.id) ru with
    | error e => rfl
    | ok uri => rfl

/-- Witness for C4: a client whose `max_scopes` ceiling is `0b101`; the
flow produced for a request of `0b011` carries the intersection with the
ceiling, a subset of it. -/
theorem begin_clamps_scope_witness :
    (FlowInit.mk 1 7 (Scopes.intersect ⟨3⟩ (Scopes.from_postgres 5))
        "https://a.example/cb" none).scope =
      Scopes.intersect ⟨3⟩ (Scopes.from_postgres 5) ∧
    Scopes.is_subset_of
        (FlowInit.mk 1 7 (Scopes.intersect ⟨3⟩ (Scopes.from_postgres 5))
          "https://a.example/cb" none).scope
        (Scopes.from_postgres 5) = true :=
  (begin_clamps_scope
      ⟨[⟨1, "c1", none, 5, "h1", 0, 9⟩], [⟨5, 1, "https://a.example/cb"⟩], []⟩
      1 ⟨3⟩ ⟨3⟩ none none 7 ⟨1, "c1", none, 5, "h1", 0, 9⟩ rfl).1
    (FlowInit.mk 1 7 (Scopes.intersect ⟨3⟩ (Scopes.from_postgres 5))
      "https://a.example/cb" none)
    (by rfl)

/-- The per-flow state machine of spec §4.4:
`Created → Accepted | Rejected | Expired`, `Accepted → Exchanged | Expired`
(expiry is passive and not part of this state word). -/
inductive FlowStatus where
  | Created
  | Accepted
  | Rejected
  | Exchanged
deriving DecidableEq, Repr

/-- Modelled from the spec: an `AuthorizationFlowState` as consulted by the
token issuer — the owning client and user, the narrowed scope, the redirect
URI captured by value at `begin`, the single-use authorization code, and
the current state-machine word. -/
structure Flow where
  status : FlowStatus
  client_id : Int
  user_id : Int
  scope : Scopes
  redirect_uri : String
  code : Nat
deriving DecidableEq, Repr

/-- Modelled from the spec: the opaque password-hashing primitive, as an
injective tag. -/
def hashSecret (s : String) : String := String.append "hashed:" s

/-- Modelled from the spec (§4.5): `exchange(grant_type, code,
redirect_uri?, client_id, client_secret)` against a flow — fails
`UnsupportedGrantType` unless the grant type is `authorization_code`,
`InvalidClient` on unknown client id or secret mismatch, `InvalidGrant`
unless the flow is in `Accepted` state with a matching code, client and
captured redirect URI; on success returns the granted scope and the flow
moved to `Exchanged`. -/
def exchange (db : RegistryDb) (grant_type : String) (code : Nat)
    (redirect_uri : Option String) (client_id : Int) (client_secret : String)
    (flow : Flow) : Except OAuthError (Scopes × Flow) :=
  if grant_type != "authorization_code" then
    Except.error OAuthError.UnsupportedGrantType
  else
    match db.clients.find? (fun c => c.id == client_id) with
    | none => Except.error OAuthError.InvalidClient
    | some client =>
      if client.secret_hash != hashSecret client_secret then
        Except.error OAuthError.InvalidClient
      else if flow.status != FlowStatus.Accepted then
        Except.error OAuthError.InvalidGrant
      else if flow.code != code then
        Except.error OAuthError.InvalidGrant
      else if flow.client_id != client_id then
        Except.error OAuthError.InvalidGrant
      else if redirect_uri.getD flow.redirect_uri != flow.redirect_uri then
        Except.error OAuthError.InvalidGrant
      else
        Except.ok (flow.scope, { flow with status := FlowStatus.Exchanged })

/-- C5: an authorization code is consumed exactly once — a successful
exchange requires and leaves behind the `Accepted → Exchanged` transition,
a subsequent exchange attempt with the same code fails `InvalidGrant`, and
exchange against a flow still in `Created` (never accepted) fails
`InvalidGrant` (given a well-formed grant type and valid client
credentials, the checks that precede the flow-state check). -/
theorem auth_code_single_use (db : RegistryDb) (gt : String) (code : Nat)
    (ru : Option String) (cid : Int) (sec : String) (flow : Flow) :
    (∀ out, exchange db gt code ru cid sec flow = Except.ok out →
      flow.status = FlowStatus.Accepted ∧
      out.2.status = FlowStatus.Exchanged ∧
      exchange db gt code ru cid sec out.2 =
        Except.error OAuthError.InvalidGrant) ∧
    (∀ client, flow.status = FlowStatus.Created →
      db.clients.find? (fun c => c.id == cid) = some client →
      client.secret_hash = hashSecret sec →
      exchange db "authorization_code" code ru cid sec flow =
        Except.error OAuthError.InvalidGrant) := by
  constructor
  · intro out h
    simp only [exchange] at h
    split at h
    · exact absurd h (by simp)
    · rename_i hgt
      split at h
      · exact absurd h (by simp)
      · rename_i client hcf
        split at h
        · exact absurd h (by simp)
        · rename_i hsec
          split at h
          · exact absurd h (by simp)
          · rename_i hstatus
            split at h
            · exact absurd h (by simp)
            · rename_i hcode
              split at h
              · exact absurd h (by simp)
              · rename_i hcid
                split at h
                · exact absurd h (by simp)
                · rename_i hru
                  have hout : out =
                      (flow.scope, { flow with status := FlowStatus.Exchanged }) := by
                    cases h
                    rfl
                  subst hout
                  refine ⟨?_, rfl, ?_⟩
                  · simpa using hstatus
                  · simp only [exchange]
                    rw [if_neg hgt]
                    simp only [hcf]
                    rw [if_neg hsec]
                    rfl
  · intro client h1 hcf hsec
    simp only [exchange]
    rw [if_neg (by decide : ¬(("authorization_code" != "authorization_code") = true))]
    simp only [hcf]
    rw [if_neg (by simp [hsec])]
    rw [if_pos (by simp [h1])]

/-- Witness for C5: a concrete accepted flow for client 1 with code 42; the
exchange succeeds, the flow moves to `Exchanged`, and the replayed exchange
with the very same code fails `InvalidGrant`. -/
theorem auth_code_single_use_witness :
    Flow.status (Flow.mk FlowStatus.Accepted 1 7 ⟨1⟩ "https://a.example/cb" 42)
        = FlowStatus.Accepted ∧
      (Prod.snd (Scopes.mk 1,
          Flow.mk FlowStatus.Exchanged 1 7 ⟨1⟩ "https://a.example/cb" 42)).status
        = FlowStatus.Exchanged ∧
      exchange
        ⟨[⟨1, "c1", none, 5, String.append "hashed:" "s3cret", 0, 9⟩],
         [⟨5, 1, "https://a.example/cb"⟩], []⟩
        "authorization_code" 42 none 1 "s3cret"
        (Prod.snd (Scopes.mk 1,
          Flow.mk FlowStatus.Exchanged 1 7 ⟨1⟩ "https://a.example/cb" 42))
        = Except.error OAuthError.InvalidGrant :=
  (auth_code_single_use
      ⟨[⟨1, "c1", none, 5, String.append "hashed:" "s3cret", 0, 9⟩],
       [⟨5, 1, "https://a.example/cb"⟩], []⟩
      "authorization_code" 42 none 1 "s3cret"
      (Flow.mk FlowStatus.Accepted 1 7 ⟨1⟩ "https://a.example/cb" 42)).1
    (Scopes.mk 1, Flow.mk FlowStatus.Exchanged 1 7 ⟨1⟩ "https://a.example/cb" 42)
    (by rfl)

end Labrinth
